import Mathlib

/-!
Shallow embedding of the SRS core of the mindspark-srs repository.

Source files embedded:
- `src/srs_algorithm.py` — `SRSAlgorithm.calculate_srs`, `SRSAlgorithm.fuzzy_match`,
  `SRSAlgorithm.calculate_next_review`, `SRSAlgorithm.calculate_next_review_legacy`;
- `src/app.py` — the scheduling-state update of `submit_answer_duolingo`
  (including the streak update and the `or`-defaulting of NULL columns), and the
  due-candidate SELECT of `start_session` (filter, ORDER BY, LIMIT) under the
  default SQLite engine.

Python `int` is modelled as `Int`, Python `float` as `Rat` (the exact value of
the same arithmetic expressions; all values reached by the claims are decimal
fractions on which IEEE double arithmetic agrees with the rational result),
timestamps as `Int` (minutes), SQL NULL as `Option`.
-/

/-- Python's built-in `round` on an exact value: round to nearest, ties to even
(banker's rounding). Embeds the `round(...)` calls of `calculate_srs` and
`calculate_next_review_legacy`. -/
def pyRound (q : ℚ) : ℤ :=
  if q - ⌊q⌋ < 1/2 then ⌊q⌋
  else if 1/2 < q - ⌊q⌋ then ⌊q⌋ + 1
  else if ⌊q⌋ % 2 = 0 then ⌊q⌋ else ⌊q⌋ + 1

/-- `SRSAlgorithm.calculate_srs` (src/srs_algorithm.py lines 8-38).
Returns `(new_interval, new_ease_factor, new_repetitions)`. -/
def calculate_srs (correct : Bool) (current_interval : ℤ) (ease_factor : ℚ)
    (repetitions : ℤ) : ℤ × ℚ × ℤ :=
  if correct then
    let repetitions := repetitions + 1
    let new_interval :=
      if repetitions = 1 then 1
      else if repetitions = 2 then 3
      else pyRound ((current_interval : ℚ) * ease_factor)
    let new_ease_factor := min (ease_factor + 1/10) 3
    (new_interval, new_ease_factor, repetitions)
  else
    let new_interval := max 1 (Int.fdiv current_interval 2)
    let new_ease_factor := max (13/10) (ease_factor - 2/10)
    (new_interval, new_ease_factor, 0)

/-- Per-word scheduling state as kept in the `words` table columns
`interval`, `repetitions`, `ease_factor`, `streak` (src/app.py). -/
structure WordState where
  interval : ℤ
  repetitions : ℤ
  ease : ℚ
  streak : ℤ
deriving DecidableEq

/-- One answer-processing step of `submit_answer_duolingo` (src/app.py lines
996-1016) on non-NULL state: `calculate_srs` plus the streak update
`new_streak = current_streak + 1 if is_correct else 0`. -/
def advance (correct : Bool) (s : WordState) : WordState :=
  let r := calculate_srs correct s.interval s.ease s.repetitions
  { interval := r.1, repetitions := r.2.2, ease := r.2.1,
    streak := if correct then s.streak + 1 else 0 }

/-- Folding `advance` over a history of answers (oldest first). -/
def advanceHistory (history : List Bool) (s : WordState) : WordState :=
  history.foldl (fun st c => advance c st) s

/-- The scheduling-state invariant of the claims: ease factor within its clamp
bounds and interval at least one unit. -/
def SRSInvariant (s : WordState) : Prop :=
  1 ≤ s.interval ∧ 13/10 ≤ s.ease ∧ s.ease ≤ 3

/-- Python `x or d` for an optional integer column: NULL and 0 are falsy.
Embeds the defaulting `word_row[i] or d` of `submit_answer_duolingo`. -/
def orInt (v : Option ℤ) (d : ℤ) : ℤ :=
  match v with
  | none => d
  | some x => if x = 0 then d else x

/-- Python `x or d` for an optional float column: NULL and 0.0 are falsy. -/
def orRat (v : Option ℚ) (d : ℚ) : ℚ :=
  match v with
  | none => d
  | some x => if x = 0 then d else x

/-- The full state update of `submit_answer_duolingo` (src/app.py lines
987-1016): defaulting of possibly-NULL columns, `calculate_srs`, the streak
update, and `next_review = now + new_interval` (minutes). `now` is the value
`datetime.now()` read at the call. Returns the new state and `next_review`. -/
def submit_answer_advance (is_correct : Bool) (interval repetitions streak : Option ℤ)
    (ease : Option ℚ) (now : ℤ) : WordState × ℤ :=
  let current_interval := orInt interval 1
  let current_repetitions := orInt repetitions 0
  let current_ease := orRat ease (5/2)
  let current_streak := orInt streak 0
  let r := calculate_srs is_correct current_interval current_ease current_repetitions
  ({ interval := r.1, repetitions := r.2.2, ease := r.2.1,
     streak := if is_correct then current_streak + 1 else 0 }, now + r.1)

/-- Result dictionary of `calculate_next_review_legacy`
(src/srs_algorithm.py lines 70-98). `next_review_date` is in minutes. -/
structure LegacyResult where
  new_interval : ℤ
  new_ease : ℚ
  new_repetition_count : ℤ
  next_review_date : ℤ
deriving DecidableEq

/-- `SRSAlgorithm.calculate_next_review_legacy` (src/srs_algorithm.py lines
70-98). The function reads `datetime.now()` internally; `now` is the value of
that read, passed explicitly so the embedding is a function. -/
def calculate_next_review_legacy (quality_response : ℤ) (current_interval : ℤ)
    (current_ease : ℚ) (repetition_count : ℤ) (now : ℤ) : LegacyResult :=
  let p :=
    if quality_response < 3 then ((1 : ℤ), (0 : ℤ))
    else
      let repetition_count := repetition_count + 1
      let interval :=
        if repetition_count = 1 then 1
        else if repetition_count = 2 then 6
        else pyRound ((current_interval : ℚ) * current_ease)
      (interval, repetition_count)
  let ease_factor := current_ease +
    (1/10 - ((5 - quality_response : ℤ) : ℚ) * (2/25 + ((5 - quality_response : ℤ) : ℚ) * (1/50)))
  let ease_factor := if ease_factor < 13/10 then 13/10 else ease_factor
  { new_interval := p.1, new_ease := ease_factor,
    new_repetition_count := p.2, next_review_date := now + p.1 }

/-- `SRSAlgorithm.calculate_next_review` (src/srs_algorithm.py lines 63-68):
converts the boolean to a quality score and delegates to the legacy rule. -/
def calculate_next_review (correct : Bool) (current_interval : ℤ) (current_ease : ℚ)
    (repetition_count : ℤ) (now : ℤ) : LegacyResult :=
  calculate_next_review_legacy (if correct then 5 else 0) current_interval
    current_ease repetition_count now

/-- The ASCII whitespace set stripped by Python `str.strip()`. -/
def pyIsSpace (c : Char) : Bool :=
  c = ' ' || c = '\t' || c = '\n' || c = '\r' || c = '\x0b' || c = '\x0c'

/-- ASCII case folding of Python `str.lower()` (all inputs of the claims are
ASCII). -/
def pyToLower (c : Char) : Char :=
  if 'A' ≤ c ∧ c ≤ 'Z' then Char.ofNat (c.toNat + 32) else c

/-- `s.lower().strip()` as in `fuzzy_match`. -/
def strClean (s : List Char) : List Char :=
  (((s.map pyToLower).dropWhile pyIsSpace).reverse.dropWhile pyIsSpace).reverse

/-- Length of the common prefix run of two character lists. -/
def commonRun : List Char → List Char → ℕ
  | a :: as, b :: bs => if a = b then commonRun as bs + 1 else 0
  | _, _ => 0

/-- `difflib.SequenceMatcher.find_longest_match` over the whole of both
sequences, with no junk: the longest matching block `(i, j, size)`, ties broken
by least `i` then least `j` (the scan order of the difflib loop). -/
def bestBlock (a b : List Char) : ℕ × ℕ × ℕ :=
  (List.range (a.length + 1)).foldl (fun best i =>
    (List.range (b.length + 1)).foldl (fun best j =>
      let k := commonRun (a.drop i) (b.drop j)
      if best.2.2 < k then (i, j, k) else best) best) (0, 0, 0)

/-- Total size of the matching blocks of `difflib.SequenceMatcher`
(Ratcliff-Obershelp): recursively the longest block plus the matches of the
parts before and after it. `fuel` bounds the recursion depth; `|a| + |b|`
always suffices since each recursive call strictly shrinks the total length. -/
def matchTotal : ℕ → List Char → List Char → ℕ
  | 0, _, _ => 0
  | fuel + 1, a, b =>
    let m := bestBlock a b
    if m.2.2 = 0 then 0
    else matchTotal fuel (a.take m.1) (b.take m.2.1) + m.2.2 +
      matchTotal fuel (a.drop (m.1 + m.2.2)) (b.drop (m.2.1 + m.2.2))

/-- `difflib.SequenceMatcher(None, a, b).ratio()`: `2*M / (len(a)+len(b))`,
and 1.0 when both are empty. The Python variable holding it in `fuzzy_match`
is named `similarity`. -/
def similarity (a b : List Char) : ℚ :=
  if a.length + b.length = 0 then 1
  else 2 * (matchTotal (a.length + b.length) a b : ℚ) / ((a.length : ℚ) + (b.length : ℚ))

/-- `SRSAlgorithm.fuzzy_match` (src/srs_algorithm.py lines 40-61). -/
def fuzzy_match (user_answer correct_answer : String) (threshold : ℚ := 4/5) : Bool :=
  let user_clean := strClean user_answer.data
  let correct_clean := strClean correct_answer.data
  if user_clean = correct_clean then true
  else decide (threshold ≤ similarity user_clean correct_clean)

/-- One joined row of the `start_session` due-candidate query (src/app.py
lines 406-520): `words LEFT JOIN reviews`, so the review columns may be NULL.
Only the columns the WHERE/ORDER BY clauses read are modelled. -/
structure Row where
  word_id : ℤ
  difficulty_score : ℚ
  next_review_date : Option ℤ
  ease_factor : Option ℚ
deriving DecidableEq

/-- The WHERE clause `r.next_review_date IS NULL OR r.next_review_date <= today`. -/
def isDue (today : ℤ) (r : Row) : Bool :=
  match r.next_review_date with
  | none => true
  | some d => decide (d ≤ today)

/-- The rows passing the WHERE clause, in table order. -/
def start_session_candidates (rows : List Row) (today : ℤ) : List Row :=
  rows.filter (isDue today)

/-- SQLite ordering key of an optional integer column in ASC position:
NULL sorts first, then values ascending. -/
def optIntKey : Option ℤ → ℤ × ℤ
  | none => (0, 0)
  | some d => (1, d)

/-- SQLite ordering key of an optional float column in ASC position. -/
def optRatKey : Option ℚ → ℤ × ℚ
  | none => (0, 0)
  | some q => (1, q)

/-- The composite ORDER BY key of the `start_session` query under SQLite:
`CASE WHEN next_review_date < today THEN 0 ELSE 1 END` (NULL falls into the
ELSE branch), then `next_review_date ASC` (NULL first), then
`difficulty_score DESC`, then `ease_factor ASC` (NULL first), compared
lexicographically. -/
def rowKey (today : ℤ) (r : Row) :
    Lex (ℤ × Lex (ℤ × Lex (ℤ × Lex (ℚ × Lex (ℤ × ℚ))))) :=
  let caseKey : ℤ :=
    match r.next_review_date with
    | some d => if d < today then 0 else 1
    | none => 1
  toLex (caseKey, toLex ((optIntKey r.next_review_date).1,
    toLex ((optIntKey r.next_review_date).2,
      toLex (-r.difficulty_score, toLex (optRatKey r.ease_factor)))))

/-- `ORDER BY` comparison between two candidate rows. -/
def rowLE (today : ℤ) (a b : Row) : Prop :=
  rowKey today a ≤ rowKey today b

instance (today : ℤ) : DecidableRel (rowLE today) := fun a b =>
  inferInstanceAs (Decidable (rowKey today a ≤ rowKey today b))

instance (today : ℤ) : IsTotal Row (rowLE today) :=
  ⟨fun a b => le_total (rowKey today a) (rowKey today b)⟩

instance (today : ℤ) : IsTrans Row (rowLE today) :=
  ⟨fun _ _ _ => le_trans⟩

/-- The ORDER BY stage: the candidate rows sorted by `rowLE today`. -/
def sortRows (today : ℤ) (rows : List Row) : List Row :=
  List.insertionSort (rowLE today) rows

/-- SQLite `LIMIT size`: a negative limit means no limit; otherwise the first
`size` rows. -/
def limitRows (size : ℤ) (rows : List Row) : List Row :=
  if size < 0 then rows else rows.take size.toNat

/-- The due-candidate selection of `start_session` (src/app.py lines 406-520):
WHERE, then ORDER BY, then LIMIT. `size` comes from the request unvalidated
(default 10). -/
def start_session_select (rows : List Row) (today size : ℤ) : List Row :=
  limitRows size (sortRows today (start_session_candidates rows today))

set_option maxRecDepth 100000

theorem floor_le_pyRound (q : ℚ) : ⌊q⌋ ≤ pyRound q := by
  rw [pyRound]
  split_ifs <;> omega

theorem one_le_pyRound {q : ℚ} (h : (1 : ℚ) ≤ q) : 1 ≤ pyRound q :=
  le_trans (Int.le_floor.mpr (by exact_mod_cast h)) (floor_le_pyRound q)

theorem advance_invariant (c : Bool) (s : WordState) (h : SRSInvariant s) :
    SRSInvariant (advance c s) := by
  obtain ⟨h1, h2, h3⟩ := h
  cases c
  · refine ⟨le_max_left _ _, le_max_left _ _, ?_⟩
    simp only [advance, calculate_srs, Bool.false_eq_true, if_false]
    exact max_le (by norm_num) (by linarith)
  · refine ⟨?_, ?_, ?_⟩
    · simp only [advance, calculate_srs, if_true]
      split_ifs
      · norm_num
      · norm_num
      · apply one_le_pyRound
        have hi : (1 : ℚ) ≤ (s.interval : ℚ) := by exact_mod_cast h1
        nlinarith
    · simp only [advance, calculate_srs, if_true]
      exact le_min (by linarith) (by norm_num)
    · simp only [advance, calculate_srs, if_true]
      exact min_le_right _ _

/-- Claim C1: from any state with ease factor in [1.3, 3.0] and interval at
least 1, `calculate_srs` (through `advance`, for a correct or an incorrect
answer) preserves both bounds, and hence they hold after every history of
correct/incorrect answers. -/
theorem srs_ease_interval_invariant (s : WordState) (history : List Bool)
    (h : SRSInvariant s) : SRSInvariant (advanceHistory history s) := by
  induction history generalizing s with
  | nil => exact h
  | cons c rest ih => exact ih _ (advance_invariant c s h)

/-- Witness for C1: the invariant holds at the default state and is carried
through the concrete history correct, incorrect, correct. -/
theorem srs_ease_interval_invariant_witness :
    SRSInvariant (advanceHistory [true, false, true] ⟨1, 0, 5/2, 0⟩) :=
  srs_ease_interval_invariant ⟨1, 0, 5/2, 0⟩ [true, false, true]
    ⟨by norm_num, by norm_num, by norm_num⟩

/-- Claim C2: from the default state (interval 1, ease 2.5, repetitions 0,
streak 0) a correct answer gives interval 1 (the first-correct constant),
ease 2.6, repetitions 1, streak 1; a second correct answer then gives
repetitions 2, interval 3 (the second-correct constant), ease 2.7. -/
theorem first_two_correct_answers :
    advance true ⟨1, 0, 5/2, 0⟩ = ⟨1, 1, 13/5, 1⟩
    ∧ advance true ⟨1, 1, 13/5, 1⟩ = ⟨3, 2, 27/10, 2⟩ := by
  constructor
  · simp [advance, calculate_srs]
    norm_num
  · simp [advance, calculate_srs]
    norm_num

/-- Claim C3: an incorrect answer resets repetitions and streak to 0, halves
the interval with floor 1 (`max(1, interval // 2)`), and lowers the ease
factor by 0.2 with floor 1.3; in particular state (10, 2.0, reps 3, streak 3)
becomes (5, 1.8, 0, 0). -/
theorem incorrect_answer_transition :
    (∀ s : WordState, advance false s =
      ⟨max 1 (Int.fdiv s.interval 2), 0, max (13/10) (s.ease - 2/10), 0⟩)
    ∧ advance false ⟨10, 3, 2, 3⟩ = ⟨5, 0, 9/5, 0⟩ := by
  constructor
  · intro s; rfl
  · have h5 : Int.fdiv 10 2 = 5 := by decide
    simp [advance, calculate_srs, h5]
    norm_num

/-- Claim C5: the answer-processing step is pure, total and deterministic.
Both update functions are total Lean functions on all well-formed inputs
(including NULL columns in the `submit_answer_duolingo` path, defaulted by
`or`, and repetition count 0 / interval 1); the new scheduling state does not
depend on the clock reading `now` at all, and `now` enters the output only as
`next_review = now + new_interval`, so identical `(state, wasCorrect, now)`
arguments give identical results. -/
theorem advance_pure_total :
    (∀ (c : Bool) (iv rp st : Option ℤ) (ef : Option ℚ) (n₁ n₂ : ℤ),
        (submit_answer_advance c iv rp st ef n₁).1 = (submit_answer_advance c iv rp st ef n₂).1
        ∧ (submit_answer_advance c iv rp st ef n₁).2
            = n₁ + (submit_answer_advance c iv rp st ef n₁).1.interval)
    ∧ (∀ (q i r n₁ n₂ : ℤ) (e : ℚ),
        (calculate_next_review_legacy q i e r n₁).new_interval
          = (calculate_next_review_legacy q i e r n₂).new_interval
        ∧ (calculate_next_review_legacy q i e r n₁).new_ease
          = (calculate_next_review_legacy q i e r n₂).new_ease
        ∧ (calculate_next_review_legacy q i e r n₁).new_repetition_count
          = (calculate_next_review_legacy q i e r n₂).new_repetition_count
        ∧ (calculate_next_review_legacy q i e r n₁).next_review_date
          = n₁ + (calculate_next_review_legacy q i e r n₁).new_interval) :=
  ⟨fun _ _ _ _ _ _ _ => ⟨rfl, rfl⟩, fun _ _ _ _ _ _ => ⟨rfl, rfl, rfl, rfl⟩⟩

/-- Claim C4: `fuzzy_match` returns true exactly when the two strings, after
lower-casing and stripping surrounding whitespace, are equal or have
SequenceMatcher ratio at least the 0.8 threshold; in particular
`judge("apel", "Apel ")` is true, `judge("aple", "apple")` is true and
`judge("xyz", "apple")` is false. -/
theorem fuzzy_match_spec :
    (∀ u c : String, fuzzy_match u c = true ↔
      (strClean u.data = strClean c.data
        ∨ 4/5 ≤ similarity (strClean u.data) (strClean c.data)))
    ∧ fuzzy_match "apel" "Apel " = true
    ∧ fuzzy_match "aple" "apple" = true
    ∧ fuzzy_match "xyz" "apple" = false := by
  refine ⟨?_, by decide, ?_, ?_⟩
  · intro u c
    by_cases h : strClean u.data = strClean c.data
    · simp [fuzzy_match, h]
    · simp [fuzzy_match, h]
  · have hne : strClean "aple".data ≠ strClean "apple".data := by decide
    have hM : matchTotal 9 (strClean "aple".data) (strClean "apple".data) = 4 := by decide
    have hlen : (strClean "aple".data).length = 4 := by decide
    have hlen2 : (strClean "apple".data).length = 5 := by decide
    simp only [fuzzy_match, similarity, hne, if_neg, hlen, hlen2]
    norm_num [hM]
  · have hne : strClean "xyz".data ≠ strClean "apple".data := by decide
    have hM : matchTotal 8 (strClean "xyz".data) (strClean "apple".data) = 0 := by decide
    have hlen : (strClean "xyz".data).length = 3 := by decide
    have hlen2 : (strClean "apple".data).length = 5 := by decide
    simp only [fuzzy_match, similarity, hne, if_neg, hlen, hlen2]
    norm_num [hM]

/-- Claim C6: a row enters the due-candidate set of the `start_session` query
if and only if it is in the scanned pool and its `next_review_date` is NULL
(never reviewed) or at most `today` — an inclusive threshold, so a row due
exactly today is included, and a never-reviewed row is included. -/
theorem due_filter_inclusive (rows : List Row) (today : ℤ) (r : Row) :
    r ∈ start_session_candidates rows today ↔
      r ∈ rows ∧ (r.next_review_date = none
        ∨ ∃ d, r.next_review_date = some d ∧ d ≤ today) := by
  rw [start_session_candidates, List.mem_filter]
  cases hd : r.next_review_date with
  | none => simp [isDue, hd]
  | some d => simp [isDue, hd]

/-- Counterexample to claim C7: a never-reviewed row (NULL `next_review_date`)
does not sort before a strictly overdue row. With row 1 never reviewed and
row 2 due at time 3 < now = 5, the query's CASE key puts row 1 in the later
group, so the returned order is [row 2, row 1], while the claim requires the
absent-date row first (absent treated as infinitely overdue). -/
theorem selector_order_counterexample :
    start_session_select [⟨1, 1, none, none⟩, ⟨2, 1, some 3, some 2⟩] 5 10
      = [⟨2, 1, some 3, some 2⟩, ⟨1, 1, none, none⟩] := by
  have h : ¬ rowLE 5 ⟨1, 1, none, none⟩ ⟨2, 1, some 3, some 2⟩ := by
    rw [rowLE, rowKey, rowKey]
    simp only [optIntKey, optRatKey]
    rw [Prod.Lex.le_iff]
    norm_num
  simp only [start_session_select, start_session_candidates, sortRows, limitRows, isDue,
    List.filter, List.insertionSort, List.orderedInsert]
  norm_num [h, List.take]

/-- Claim C7 as amended: the `start_session` selection is deterministic and
returns the due candidates ordered by the query's ORDER BY relation `rowLE`:
first the CASE key (rows due strictly before today, then rows due exactly
today together with never-reviewed rows), then `next_review_date` ascending
with NULL first (SQLite), then `difficulty_score` descending, then
`ease_factor` ascending with NULL first; the sorted list is a permutation of
the filtered candidates (ties keep input order in this model). -/
theorem selector_order_amended (rows : List Row) (today : ℤ) :
    List.Sorted (rowLE today) (sortRows today (start_session_candidates rows today))
    ∧ (sortRows today (start_session_candidates rows today)).Perm
        (start_session_candidates rows today) :=
  ⟨List.sorted_insertionSort _ _, List.perm_insertionSort _ _⟩

/-- Counterexample to claim C8: `round` is Python's banker's rounding, not
round-half-away-from-zero. At interval 1, ease 2.5, repetitions 3 the product
is exactly 2.5 and the new interval is 2 (nearest even), not 3. -/
theorem rounding_counterexample : (calculate_srs true 1 (5/2) 3).1 = 2 := by
  simp only [calculate_srs, if_true]
  norm_num
  rw [pyRound]
  norm_num

/-- Claim C8 as amended: for repetition count at least 3 the new interval is
`round(interval * ease)` with Python's round-half-to-even, so a product that
lands exactly on a half rounds to the nearest even integer; the ease-factor
clamp is applied to the updated value (`min(ease + 0.1, 3.0)`), never before
the update. -/
theorem rounding_half_even_amended (i w : ℤ) (e : ℚ) (r : ℤ) (hr : 2 ≤ r)
    (hw : (i : ℚ) * e = (w : ℚ) + 1/2) :
    (calculate_srs true i e r).1 = (if w % 2 = 0 then w else w + 1)
    ∧ (calculate_srs true i e r).2.1 = min (e + 1/10) 3 := by
  have h1 : ¬ (r + 1 = 1) := by omega
  have h2 : ¬ (r + 1 = 2) := by omega
  constructor
  · simp only [calculate_srs, if_true, h1, h2, if_false, ite_false]
    rw [hw, pyRound]
    have hfloor : ⌊(w : ℚ) + 1/2⌋ = w := by
      rw [Int.floor_int_add]
      norm_num
    rw [hfloor]
    norm_num
  · rfl

/-- Witness for the amended C8 at interval 1, ease 2.5, repetitions 3:
the product is 2 + 1/2 and the new interval is the even integer 2. -/
theorem rounding_half_even_amended_witness :
    (calculate_srs true 1 (5/2) 3).1 = (if (2 : ℤ) % 2 = 0 then (2 : ℤ) else 2 + 1)
    ∧ (calculate_srs true 1 (5/2) 3).2.1 = min ((5/2 : ℚ) + 1/10) 3 :=
  rounding_half_even_amended 1 2 (5/2) 3 (by norm_num) (by norm_num)

/-- Counterexample to claim C9: a non-positive limit is not rejected before
the store is queried. With one never-reviewed row and limit -1 the call
returns that row (SQLite treats a negative LIMIT as no limit), instead of
failing with InvalidInput and returning no items. -/
theorem limit_counterexample :
    start_session_select [⟨1, 1, none, none⟩] 0 (-1) = [⟨1, 1, none, none⟩] := by
  decide

/-- Claim C9 as amended: the limit is used unvalidated as the SQL LIMIT:
for a non-negative limit the returned list has at most `limit` rows (so a
positive limit bounds the output as claimed, and limit 0 returns nothing but
without an error); a negative limit returns every due row. -/
theorem limit_bound_amended (rows : List Row) (today size : ℤ) (h : 0 ≤ size) :
    (start_session_select rows today size).length ≤ size.toNat := by
  rw [start_session_select, limitRows, if_neg (by omega)]
  exact List.length_take_le _ _

/-- Witness for the amended C9: with limit 0 the selection returns at most 0
rows. -/
theorem limit_bound_amended_witness :
    (start_session_select [⟨1, 1, none, none⟩] 0 0).length ≤ (0 : ℤ).toNat :=
  limit_bound_amended [⟨1, 1, none, none⟩] 0 0 (by norm_num)

/-- Claim C10: `calculate_next_review` maps a correct answer to quality 5 and
an incorrect one to quality 0 and delegates to the legacy quality-scored rule,
which is not extensionally equal to `calculate_srs`: at interval 10, ease 2.5,
repetitions 3, an incorrect answer gives (1, 1.7, 0) on the legacy path
(fixed reset to 1, ease penalty 0.8) but (5, 2.3, 0) on the primary path
(halving, ease penalty 0.2); and the second-repetition interval constants
differ (6 versus 3). -/
theorem legacy_primary_inequivalent :
    (∀ (c : Bool) (i : ℤ) (e : ℚ) (r n : ℤ),
        calculate_next_review c i e r n
          = calculate_next_review_legacy (if c then 5 else 0) i e r n)
    ∧ (calculate_next_review false 10 (5/2) 3 0).new_interval = 1
    ∧ (calculate_next_review false 10 (5/2) 3 0).new_ease = 17/10
    ∧ (calculate_next_review false 10 (5/2) 3 0).new_repetition_count = 0
    ∧ calculate_srs false 10 (5/2) 3 = (5, 23/10, 0)
    ∧ (calculate_next_review false 10 (5/2) 3 0).new_interval
        ≠ (calculate_srs false 10 (5/2) 3).1
    ∧ (calculate_next_review false 10 (5/2) 3 0).new_ease
        ≠ (calculate_srs false 10 (5/2) 3).2.1
    ∧ (∀ (i : ℤ) (e : ℚ) (n : ℤ),
        (calculate_next_review true i e 1 n).new_interval = 6
        ∧ (calculate_srs true i e 1).1 = 3) := by
  have h5 : Int.fdiv 10 2 = 5 := by decide
  refine ⟨fun _ _ _ _ _ => rfl, ?_, ?_, ?_, ?_, ?_, ?_, ?_⟩
  · simp [calculate_next_review, calculate_next_review_legacy]
  · simp [calculate_next_review, calculate_next_review_legacy]
    norm_num
  · simp [calculate_next_review, calculate_next_review_legacy]
  · simp [calculate_srs, h5]
    norm_num
  · simp [calculate_next_review, calculate_next_review_legacy, calculate_srs, h5]
  · simp [calculate_next_review, calculate_next_review_legacy, calculate_srs]
    norm_num
  · intro i e n
    constructor
    · simp [calculate_next_review, calculate_next_review_legacy]
    · simp [calculate_srs]
